import Mathlib

/-!
Verification of the DEVFLOW task-board and live-meeting core.

The definitions below are shallow embeddings of the TypeScript source:
the task/project data model and handlers of `App` (part_000), the
drag-permission logic of `StatusColumn` (TaskBoard), the meeting
handlers and `handleStartMeeting` of `MeetingRoom.tsx`, and the
polling step `checkMeeting` together with a model of `JSON.parse`.
JavaScript strings are treated as their character lists where string
primitives (`toLowerCase`, `includes`, `split`, `trim`) are involved,
so that every definition evaluates inside the kernel.
-/

namespace DevFlow

/-- `UserRole` from types.ts. -/
inductive UserRole where
  | ADMIN
  | MANAGER
  | EMPLOYEE
deriving DecidableEq, Repr

/-- `TaskStatus` from types.ts. -/
inductive TaskStatus where
  | TODO
  | IN_PROGRESS
  | REVIEW
  | DONE
deriving DecidableEq, Repr

/-- `TaskCategory` from types.ts. -/
inductive TaskCategory where
  | FRONTEND
  | API
  | DEVOPS
  | DESIGN
  | GENERAL
deriving DecidableEq, Repr

/-- The `priority` union type `'LOW' | 'MEDIUM' | 'HIGH'` from types.ts. -/
inductive Priority where
  | LOW
  | MEDIUM
  | HIGH
deriving DecidableEq, Repr

/-- `Project` from types.ts. -/
structure Project where
  id : String
  name : String
  description : String
deriving DecidableEq, Repr

/-- `Task` from types.ts.  `createdAt` is the `Date.now()` millisecond
timestamp; `estimatedHours` is a plain JS number, kept as an integer. -/
structure Task where
  id : String
  projectId : String
  title : String
  description : String
  status : TaskStatus
  category : TaskCategory
  assignee : String
  priority : Priority
  acceptanceCriteria : List String
  estimatedHours : Int
  technicalPlan : Option String
  createdAt : Nat
deriving DecidableEq, Repr

/-- `User` from types.ts (the fields the core reads). -/
structure User where
  id : String
  name : String
  email : String
  role : UserRole
deriving DecidableEq, Repr

/-- `LiveMeeting` from types.ts. -/
structure LiveMeeting where
  id : String
  hostId : String
  hostName : String
  topic : String
  startTime : Nat
  isActive : Bool
  participants : List String
deriving DecidableEq, Repr

/-! ## Permission logic of `StatusColumn` (TaskBoard) -/

/-- JS `s.toLowerCase()` on the character list of `s` (ASCII case fold,
which covers every string the app produces). -/
def jsLower (s : String) : List Char :=
  s.data.map Char.toLower

/-- JS `name.split(' ')[0]`: the characters of `name` up to (excluding)
the first space. -/
def firstNameToken (name : String) : List Char :=
  name.data.takeWhile (fun c => c ≠ ' ')

/-- Whether `needle` occurs contiguously inside `hay`; JS
`hay.includes(needle)`. -/
def strIncludes (hay needle : List Char) : Bool :=
  decide (needle <:+: hay)

/-- `isAssignee` computed per task in `StatusColumn`:
`user?.name && task.assignee.toLowerCase().includes(user.name.split(' ')[0].toLowerCase())`.
The leading conjunct is the JS truthiness test on `user.name`. -/
def isAssignee (userName assignee : String) : Bool :=
  (userName ≠ "") && strIncludes (jsLower assignee) ((firstNameToken userName).map Char.toLower)

/-- `canDrag` from `StatusColumn`:
`user?.role !== 'EMPLOYEE' || isAssignee`, for a logged-in user. -/
def canDrag (role : UserRole) (userName assignee : String) : Bool :=
  (role ≠ UserRole.EMPLOYEE) || isAssignee userName assignee

/-- The assignee-match rule as the spec words it (symmetric): the user's
first name token is a substring of the assignee string, or vice versa,
case-insensitively.  Stated for comparison with `isAssignee`. -/
def specSymmetricAssigneeMatch (userName assignee : String) : Bool :=
  strIncludes (jsLower assignee) ((firstNameToken userName).map Char.toLower) ||
    strIncludes ((firstNameToken userName).map Char.toLower) (jsLower assignee)

/-! ## Task handlers of `App` (part_000) -/

/-- Outcome signal of `handleDeleteTask`: the EMPLOYEE branch raises the
"Clearance Level Insufficient" alert; otherwise the `confirm` dialog
either approves the removal or cancels it. -/
inductive DeleteOutcome where
  | denied
  | removed
  | cancelled
deriving DecidableEq, Repr

/-- `handleDeleteTask` from `App`: employees are rejected with the
clearance alert before the confirmation dialog; otherwise, on a
confirmed gesture, the task with the given id is filtered out. -/
def handleDeleteTask (role : UserRole) (confirmed : Bool) (taskId : String)
    (tasks : List Task) : List Task × DeleteOutcome :=
  if role = UserRole.EMPLOYEE then
    (tasks, DeleteOutcome.denied)
  else if confirmed then
    (tasks.filter (fun t => t.id ≠ taskId), DeleteOutcome.removed)
  else
    (tasks, DeleteOutcome.cancelled)

/-- `Omit<Task, 'id' | 'createdAt' | 'projectId'>`: the payload the task
modal submits to `handleSaveTask`. -/
structure TaskDraft where
  title : String
  description : String
  status : TaskStatus
  category : TaskCategory
  assignee : String
  priority : Priority
  acceptanceCriteria : List String
  estimatedHours : Int
  technicalPlan : Option String
deriving DecidableEq, Repr

/-- The edit-branch spread `{ ...t, ...taskData }`: every draft field
overwrites, `id`, `projectId` and `createdAt` are kept. -/
def applyDraft (t : Task) (d : TaskDraft) : Task :=
  { t with
    title := d.title
    description := d.description
    status := d.status
    category := d.category
    assignee := d.assignee
    priority := d.priority
    acceptanceCriteria := d.acceptanceCriteria
    estimatedHours := d.estimatedHours
    technicalPlan := d.technicalPlan }

/-- The create-branch object `{ ...taskData, id, projectId, createdAt }`
of `handleSaveTask`, with `freshId` the `Math.random()` id and `now`
the `Date.now()` call time. -/
def mkNewTask (d : TaskDraft) (freshId activeProjectId : String) (now : Nat) : Task :=
  { id := freshId
    projectId := activeProjectId
    title := d.title
    description := d.description
    status := d.status
    category := d.category
    assignee := d.assignee
    priority := d.priority
    acceptanceCriteria := d.acceptanceCriteria
    estimatedHours := d.estimatedHours
    technicalPlan := d.technicalPlan
    createdAt := now }

/-- `handleSaveTask` from `App`: with `taskToEdit` set it merges the
draft into the task with the matching id; otherwise it appends a new
task built from the draft, the active project and the call time. -/
def handleSaveTask (taskToEdit : Option Task) (d : TaskDraft)
    (activeProjectId freshId : String) (now : Nat)
    (tasks : List Task) : List Task :=
  match taskToEdit with
  | some te => tasks.map (fun t => if t.id = te.id then applyDraft t d else t)
  | none => tasks ++ [mkNewTask d freshId activeProjectId now]

/-- `handleStatusChange` from `App`: unconditional overwrite of the
matching task's status. -/
def handleStatusChange (taskId : String) (newStatus : TaskStatus)
    (tasks : List Task) : List Task :=
  tasks.map (fun t => if t.id = taskId then { t with status := newStatus } else t)

/-! ## JSON model

`JSON.stringify` for the `LiveMeeting` record written by the meeting
handlers, and a value-level model of `JSON.parse` for the polling step:
`JSON.parse` succeeds on well-formed JSON text and throws a
`SyntaxError` otherwise, which the embedding renders as `Except`. -/

/-- A parsed JSON value.  Numbers keep their source lexeme: the app
never computes with a parsed number, only parse success matters. -/
inductive Json where
  | null
  | bool (b : Bool)
  | num (lexeme : String)
  | str (s : String)
  | arr (elems : List Json)
  | obj (fields : List (String × Json))
deriving Repr

/-- The JSON whitespace characters. -/
def isJsonWs (c : Char) : Bool :=
  c = ' ' || c = '\t' || c = '\n' || c = '\r'

/-- Drop leading JSON whitespace. -/
def skipJsonWs (s : List Char) : List Char :=
  s.dropWhile isJsonWs

/-- Lower-case hex digit of `n < 16`, as `JSON.stringify` emits. -/
def hexDigit (n : Nat) : Char :=
  if n < 10 then Char.ofNat (48 + n) else Char.ofNat (87 + n)

/-- `JSON.stringify` escaping of one character inside a string value. -/
def jsonEscapeChar (c : Char) : List Char :=
  if c = '"' then ['\\', '"']
  else if c = '\\' then ['\\', '\\']
  else if c = '\x08' then ['\\', 'b']
  else if c = '\t' then ['\\', 't']
  else if c = '\n' then ['\\', 'n']
  else if c = '\x0c' then ['\\', 'f']
  else if c = '\r' then ['\\', 'r']
  else if c.toNat < 32 then
    ['\\', 'u', '0', '0', hexDigit (c.toNat / 16), hexDigit (c.toNat % 16)]
  else [c]

/-- A JSON string literal for `s`, quotes included. -/
def jsonQuote (s : String) : String :=
  ⟨'"' :: (s.data.map jsonEscapeChar).flatten ++ ['"']⟩

/-- A JSON array of string literals. -/
def jsonStringArray (xs : List String) : String :=
  "[" ++ String.intercalate "," (xs.map jsonQuote) ++ "]"

/-- `JSON.stringify(meeting)` for a `LiveMeeting`, keys in the property
order of the object literal in `handleStartLiveMeeting`. -/
def stringifyLiveMeeting (m : LiveMeeting) : String :=
  "\x7b\"id\":" ++ jsonQuote m.id ++
    ",\"hostId\":" ++ jsonQuote m.hostId ++
    ",\"hostName\":" ++ jsonQuote m.hostName ++
    ",\"topic\":" ++ jsonQuote m.topic ++
    ",\"startTime\":" ++ toString m.startTime ++
    ",\"isActive\":" ++ (if m.isActive then "true" else "false") ++
    ",\"participants\":" ++ jsonStringArray m.participants ++ "\x7d"

/-- Value of one hex digit, if `c` is one. -/
def hexVal (c : Char) : Option Nat :=
  if '0' ≤ c ∧ c ≤ '9' then some (c.toNat - 48)
  else if 'a' ≤ c ∧ c ≤ 'f' then some (c.toNat - 87)
  else if 'A' ≤ c ∧ c ≤ 'F' then some (c.toNat - 55)
  else none

/-- Body of a JSON string literal, the opening quote already consumed;
handles the JSON escapes and rejects raw control characters, as
`JSON.parse` does.  Returns the decoded string and the rest. -/
def parseStringBody (acc : List Char) : List Char → Except String (String × List Char)
  | [] => Except.error "Unterminated string in JSON"
  | c :: rest =>
    if c = '"' then Except.ok (⟨acc.reverse⟩, rest)
    else if c = '\\' then
      match rest with
      | [] => Except.error "Unterminated string in JSON"
      | e :: rest2 =>
        if e = '"' then parseStringBody ('"' :: acc) rest2
        else if e = '\\' then parseStringBody ('\\' :: acc) rest2
        else if e = '/' then parseStringBody ('/' :: acc) rest2
        else if e = 'b' then parseStringBody ('\x08' :: acc) rest2
        else if e = 'f' then parseStringBody ('\x0c' :: acc) rest2
        else if e = 'n' then parseStringBody ('\n' :: acc) rest2
        else if e = 'r' then parseStringBody ('\r' :: acc) rest2
        else if e = 't' then parseStringBody ('\t' :: acc) rest2
        else if e = 'u' then
          match rest2 with
          | h1 :: h2 :: h3 :: h4 :: rest3 =>
            match hexVal h1, hexVal h2, hexVal h3, hexVal h4 with
            | some a, some b, some c1, some d =>
              parseStringBody (Char.ofNat (((a * 16 + b) * 16 + c1) * 16 + d) :: acc) rest3
            | _, _, _, _ => Except.error "Bad Unicode escape in JSON"
          | _ => Except.error "Bad Unicode escape in JSON"
        else Except.error "Bad escaped character in JSON"
    else if c.toNat < 32 then Except.error "Bad control character in JSON string"
    else parseStringBody (c :: acc) rest

/-- The digit run at the front of `s` and the rest. -/
def splitDigits (s : List Char) : List Char × List Char :=
  (s.takeWhile Char.isDigit, s.dropWhile Char.isDigit)

/-- The optional fraction part of a JSON number (`.` plus digits). -/
def parseFracPart (s : List Char) : Except String (List Char × List Char) :=
  match s with
  | '.' :: r =>
    let (ds, r2) := splitDigits r
    if ds.isEmpty then Except.error "Unterminated fractional number in JSON"
    else Except.ok ('.' :: ds, r2)
  | _ => Except.ok ([], s)

/-- The optional exponent part of a JSON number. -/
def parseExpPart (s : List Char) : Except String (List Char × List Char) :=
  match s with
  | e :: r =>
    if e = 'e' ∨ e = 'E' then
      let (sgn, r1) := match r with
        | '+' :: r1 => (['+'], r1)
        | '-' :: r1 => (['-'], r1)
        | _ => ([], r)
      let (ds, r2) := splitDigits r1
      if ds.isEmpty then Except.error "Exponent part is missing a number in JSON"
      else Except.ok (e :: sgn ++ ds, r2)
    else Except.ok ([], s)
  | [] => Except.ok ([], [])

/-- A JSON number lexeme at the front of `s` (which starts with `-` or a
digit).  A leading `0` takes no further integer digits, matching the
JSON grammar. -/
def parseNumberLex (s : List Char) : Except String (String × List Char) :=
  let (sgn, s1) := match s with
    | '-' :: r => (['-'], r)
    | _ => ([], s)
  match s1 with
  | [] => Except.error "Unexpected end of JSON input"
  | c :: r =>
    if !c.isDigit then Except.error "No number after minus sign in JSON"
    else
      let (intPart, afterInt) :=
        if c = '0' then (['0'], r)
        else splitDigits (c :: r)
      match parseFracPart afterInt with
      | Except.error e => Except.error e
      | Except.ok (frac, afterFrac) =>
        match parseExpPart afterFrac with
        | Except.error e => Except.error e
        | Except.ok (ex, rest) => Except.ok (⟨sgn ++ intPart ++ frac ++ ex⟩, rest)

mutual

/-- A JSON value at the front of the input, leading whitespace allowed;
the model of `JSON.parse`'s recursive descent.  `fuel` only bounds the
recursion; `jsonParse` supplies enough for any input. -/
def parseValue : Nat → List Char → Except String (Json × List Char)
  | 0, _ => Except.error "JSON nesting exceeds model fuel"
  | fuel + 1, s =>
    match skipJsonWs s with
    | [] => Except.error "Unexpected end of JSON input"
    | c :: rest =>
      if c = 'n' then
        match rest with
        | 'u' :: 'l' :: 'l' :: r => Except.ok (Json.null, r)
        | _ => Except.error "Unexpected token in JSON"
      else if c = 't' then
        match rest with
        | 'r' :: 'u' :: 'e' :: r => Except.ok (Json.bool true, r)
        | _ => Except.error "Unexpected token in JSON"
      else if c = 'f' then
        match rest with
        | 'a' :: 'l' :: 's' :: 'e' :: r => Except.ok (Json.bool false, r)
        | _ => Except.error "Unexpected token in JSON"
      else if c = '"' then
        match parseStringBody [] rest with
        | Except.error e => Except.error e
        | Except.ok (str, r) => Except.ok (Json.str str, r)
      else if c = '[' then
        match parseElemsStart fuel rest with
        | Except.error e => Except.error e
        | Except.ok (elems, r) => Except.ok (Json.arr elems, r)
      else if c = '\x7b' then
        match parseFieldsStart fuel rest with
        | Except.error e => Except.error e
        | Except.ok (fields, r) => Except.ok (Json.obj fields, r)
      else if c = '-' ∨ c.isDigit then
        match parseNumberLex (c :: rest) with
        | Except.error e => Except.error e
        | Except.ok (lex, r) => Except.ok (Json.num lex, r)
      else Except.error "Unexpected token in JSON"

/-- Elements of a JSON array, just after `[`. -/
def parseElemsStart : Nat → List Char → Except String (List Json × List Char)
  | 0, _ => Except.error "JSON nesting exceeds model fuel"
  | fuel + 1, s =>
    match skipJsonWs s with
    | ']' :: r => Except.ok ([], r)
    | s1 =>
      match parseValue fuel s1 with
      | Except.error e => Except.error e
      | Except.ok (v, r) =>
        match parseElemsRest fuel r with
        | Except.error e => Except.error e
        | Except.ok (vs, r2) => Except.ok (v :: vs, r2)

/-- Continuation of a JSON array after one element: `,` or `]`. -/
def parseElemsRest : Nat → List Char → Except String (List Json × List Char)
  | 0, _ => Except.error "JSON nesting exceeds model fuel"
  | fuel + 1, s =>
    match skipJsonWs s with
    | ']' :: r => Except.ok ([], r)
    | ',' :: r =>
      match parseValue fuel r with
      | Except.error e => Except.error e
      | Except.ok (v, r1) =>
        match parseElemsRest fuel r1 with
        | Except.error e => Except.error e
        | Except.ok (vs, r2) => Except.ok (v :: vs, r2)
    | _ => Except.error "Expected comma or closing bracket in JSON array"

/-- Fields of a JSON object, just after the opening brace. -/
def parseFieldsStart : Nat → List Char → Except String (List (String × Json) × List Char)
  | 0, _ => Except.error "JSON nesting exceeds model fuel"
  | fuel + 1, s =>
    match skipJsonWs s with
    | '\x7d' :: r => Except.ok ([], r)
    | s1 =>
      match parseField fuel s1 with
      | Except.error e => Except.error e
      | Except.ok (kv, r) =>
        match parseFieldsRest fuel r with
        | Except.error e => Except.error e
        | Except.ok (kvs, r2) => Except.ok (kv :: kvs, r2)

/-- Continuation of a JSON object after one field: `,` or the closing
brace. -/
def parseFieldsRest : Nat → List Char → Except String (List (String × Json) × List Char)
  | 0, _ => Except.error "JSON nesting exceeds model fuel"
  | fuel + 1, s =>
    match skipJsonWs s with
    | '\x7d' :: r => Except.ok ([], r)
    | ',' :: r =>
      match parseField fuel r with
      | Except.error e => Except.error e
      | Except.ok (kv, r1) =>
        match parseFieldsRest fuel r1 with
        | Except.error e => Except.error e
        | Except.ok (kvs, r2) => Except.ok (kv :: kvs, r2)
    | _ => Except.error "Expected comma or closing brace in JSON object"

/-- One `"key": value` field of a JSON object. -/
def parseField : Nat → List Char → Except String ((String × Json) × List Char)
  | 0, _ => Except.error "JSON nesting exceeds model fuel"
  | fuel + 1, s =>
    match skipJsonWs s with
    | '"' :: r =>
      match parseStringBody [] r with
      | Except.error e => Except.error e
      | Except.ok (key, r1) =>
        match skipJsonWs r1 with
        | ':' :: r2 =>
          match parseValue fuel r2 with
          | Except.error e => Except.error e
          | Except.ok (v, r3) => Except.ok ((key, v), r3)
        | _ => Except.error "Expected colon in JSON object"
    | _ => Except.error "Expected property name in JSON object"

end

/-- `JSON.parse(s)`: one value, then only trailing whitespace. -/
def jsonParse (s : String) : Except String Json :=
  match parseValue (4 * (s.data.length + 1)) s.data with
  | Except.error e => Except.error e
  | Except.ok (v, rest) =>
    if (skipJsonWs rest).isEmpty then Except.ok v
    else Except.error "Unexpected non-whitespace character after JSON data"

/-! ## Session coordination (meeting handlers and the polling step) -/

/-- The local component of the meeting state: the `liveMeeting` React
state of `App`. -/
structure MeetLocalState where
  liveMeeting : Option LiveMeeting
deriving DecidableEq, Repr

/-- The shared `devflow_live_meeting` localStorage entry: absent
(`null` from `getItem`) or a raw string. -/
abbrev MeetingStore := Option String

/-- One execution of `checkMeeting`, the body of the 1-second polling
loop in `App`: an absent entry sets `liveMeeting` to `null`; so does the
empty string, which is falsy under `if (stored)`; any other string goes
through `JSON.parse(stored)` with no surrounding try/catch, so the
result is whatever value parses (assigned to `liveMeeting`) or the
thrown `SyntaxError`. -/
def checkMeeting (stored : MeetingStore) : Except String (Option Json) :=
  match stored with
  | none => Except.ok none
  | some s =>
    if s = "" then Except.ok none
    else (jsonParse s).map (fun v => some v)

/-- The `LiveMeeting` object literal built in `handleStartLiveMeeting`,
with `freshId` for `Math.random().toString(36).substr(2, 9)` and `now`
for `Date.now()`. -/
def mkLiveMeeting (user : User) (topic : String) (now : Nat) (freshId : String) : LiveMeeting :=
  { id := freshId
    hostId := user.id
    hostName := user.name
    topic := topic
    startTime := now
    isActive := true
    participants := [user.name] }

/-- `handleStartLiveMeeting` from `App` for a logged-in `user` (the
`if (!user) return` guard): builds the meeting, adopts it locally and
writes its serialization to the shared entry. -/
def handleStartLiveMeeting (user : User) (topic : String) (now : Nat) (freshId : String)
    (_st : MeetLocalState) (_store : MeetingStore) : MeetLocalState × MeetingStore :=
  let meeting := mkLiveMeeting user topic now freshId
  ({ liveMeeting := some meeting }, some (stringifyLiveMeeting meeting))

/-- `handleJoinLiveMeeting` from `App` for a logged-in `user`: a no-op
without a local meeting; with one, the user's name is appended and the
record rewritten only when the name is not yet among the participants —
both the local update and the storage write sit inside that guard. -/
def handleJoinLiveMeeting (user : User) (st : MeetLocalState) (store : MeetingStore) :
    MeetLocalState × MeetingStore :=
  match st.liveMeeting with
  | none => (st, store)
  | some lm =>
    if lm.participants.contains user.name then (st, store)
    else
      let updated := { lm with participants := lm.participants ++ [user.name] }
      ({ liveMeeting := some updated }, some (stringifyLiveMeeting updated))

/-- `handleStopLiveMeeting` from `App`: clears the local meeting and
removes the shared entry. -/
def handleStopLiveMeeting (_st : MeetLocalState) (_store : MeetingStore) :
    MeetLocalState × MeetingStore :=
  ({ liveMeeting := none }, none)

/-- `isHost` from `MeetingRoom.tsx`. -/
def isHost (u : User) : Bool :=
  u.role == UserRole.ADMIN || u.role == UserRole.MANAGER

/-- JS `s.trim()` (ASCII whitespace, which covers the app's inputs). -/
def jsTrim (s : String) : String :=
  ⟨((s.data.dropWhile Char.isWhitespace).reverse.dropWhile Char.isWhitespace).reverse⟩

/-- `liveMeeting && liveMeeting.isActive` from `handleStartMeeting`. -/
def meetingActive (st : MeetLocalState) : Bool :=
  match st.liveMeeting with
  | some lm => lm.isActive
  | none => false

/-- Outcome signal of `handleStartMeeting`: the early returns (missing
user or camera stream), the empty-topic validation error
("Please define a meeting topic."), or which branch ran. -/
inductive StartOutcome where
  | noUser
  | noStream
  | topicValidationFailed
  | started
  | joinedExisting
deriving DecidableEq, Repr

/-- `handleStartMeeting` from `MeetingRoom.tsx`, up to the view change:
requires a user and a camera stream; a host with no active meeting
starts a new one after the non-empty-topic check, anyone else joins. -/
def handleStartMeeting (user : Option User) (hasStream : Bool) (topicField : String)
    (now : Nat) (freshId : String) (st : MeetLocalState) (store : MeetingStore) :
    MeetLocalState × MeetingStore × StartOutcome :=
  match user with
  | none => (st, store, StartOutcome.noUser)
  | some u =>
    if !hasStream then (st, store, StartOutcome.noStream)
    else if isHost u && !(meetingActive st) then
      if jsTrim topicField = "" then (st, store, StartOutcome.topicValidationFailed)
      else
        let r := handleStartLiveMeeting u topicField now freshId st store
        (r.1, r.2, StartOutcome.started)
    else
      let r := handleJoinLiveMeeting u st store
      (r.1, r.2, StartOutcome.joinedExisting)

/-! ## Project handler and the board state machine -/

/-- `handleCreateProject` from `App`: appends the new project and makes
it the active one.  Returns the new project list and the new
`activeProjectId`. -/
def handleCreateProject (name description freshId : String)
    (projects : List Project) : List Project × String :=
  let newProject : Project := { id := freshId, name := name, description := description }
  (projects ++ [newProject], newProject.id)

/-- `INITIAL_PROJECTS` from `App`. -/
def INITIAL_PROJECTS : List Project :=
  [ { id := "p1", name := "E-Commerce Replatform",
      description := "Migrating legacy monolith to Next.js and Microservices." },
    { id := "p2", name := "Mobile App v2.0",
      description := "Complete redesign of the customer loyalty mobile application." },
    { id := "p3", name := "Internal Admin Dashboard",
      description := "Back-office tools for inventory and user management." } ]

/-- `INITIAL_TASKS` from `App`; `now0` stands for the `Date.now()`
evaluated at module initialization. -/
def INITIAL_TASKS (now0 : Nat) : List Task :=
  [ { id := "t1", projectId := "p1", title := "Product Listing Page (PLP)",
      description := "Implement grid layout with filtering and sorting for products.",
      status := TaskStatus.DONE, category := TaskCategory.FRONTEND, assignee := "Sarah",
      priority := Priority.HIGH,
      acceptanceCriteria := ["Filters work", "Responsive grid", "Load more pagination"],
      estimatedHours := 12, technicalPlan := none, createdAt := now0 - 200000000 },
    { id := "t2", projectId := "p1", title := "Checkout API Integration",
      description := "Integrate Stripe Payment Intents API for secure checkout.",
      status := TaskStatus.IN_PROGRESS, category := TaskCategory.API, assignee := "Mike",
      priority := Priority.HIGH,
      acceptanceCriteria := ["Payment intent created", "Webhook handler setup"],
      estimatedHours := 8, technicalPlan := none, createdAt := now0 - 100000000 },
    { id := "t3", projectId := "p1", title := "CI/CD Pipeline Setup",
      description := "Configure GitHub Actions for automated testing and deployment to AWS.",
      status := TaskStatus.REVIEW, category := TaskCategory.DEVOPS, assignee := "Yassine",
      priority := Priority.HIGH,
      acceptanceCriteria := ["Build passes", "Tests run", "Deploys to staging"],
      estimatedHours := 6, technicalPlan := none, createdAt := now0 - 50000000 },
    { id := "t4", projectId := "p1", title := "Redis Caching Layer",
      description := "Implement caching for frequent product API queries to reduce DB load.",
      status := TaskStatus.TODO, category := TaskCategory.API, assignee := "Mike",
      priority := Priority.MEDIUM,
      acceptanceCriteria := ["Cache hit ratio > 80%", "TTL configured"],
      estimatedHours := 4, technicalPlan := none, createdAt := now0 },
    { id := "t5", projectId := "p2", title := "Biometric Authentication",
      description := "Implement FaceID/TouchID login using native modules.",
      status := TaskStatus.TODO, category := TaskCategory.FRONTEND, assignee := "Sarah",
      priority := Priority.MEDIUM,
      acceptanceCriteria := ["FaceID works on iOS", "Fallback to PIN"],
      estimatedHours := 5, technicalPlan := none, createdAt := now0 - 10000000 },
    { id := "t6", projectId := "p2", title := "Push Notification Service",
      description := "Setup Firebase Cloud Messaging for marketing alerts.",
      status := TaskStatus.IN_PROGRESS, category := TaskCategory.API, assignee := "Mike",
      priority := Priority.LOW,
      acceptanceCriteria := ["Token registration", "Send endpoint works"],
      estimatedHours := 6, technicalPlan := none, createdAt := now0 - 5000000 },
    { id := "t7", projectId := "p3", title := "User Management Table",
      description := "Create a data table with search and bulk actions for user administration.",
      status := TaskStatus.TODO, category := TaskCategory.FRONTEND, assignee := "Mike",
      priority := Priority.LOW,
      acceptanceCriteria := ["Search by email", "Bulk delete", "Pagination"],
      estimatedHours := 4, technicalPlan := none, createdAt := now0 },
    { id := "t8", projectId := "p3", title := "Inventory Analytics Charts",
      description := "Visualize stock levels using Recharts bar and line charts.",
      status := TaskStatus.TODO, category := TaskCategory.FRONTEND, assignee := "Sarah",
      priority := Priority.MEDIUM,
      acceptanceCriteria := ["Bar chart for categories", "Line chart for trends"],
      estimatedHours := 6, technicalPlan := none, createdAt := now0 } ]

/-- The project/task slice of `App`'s state. -/
structure BoardState where
  projects : List Project
  activeProjectId : String
  tasks : List Task
deriving Repr

/-- The initial board state of `App`:
`activeProjectId = INITIAL_PROJECTS[0].id`. -/
def initialBoardState (now0 : Nat) : BoardState :=
  { projects := INITIAL_PROJECTS
    activeProjectId := (INITIAL_PROJECTS.headD { id := "", name := "", description := "" }).id
    tasks := INITIAL_TASKS now0 }

/-- The four store-mutating intents of the claim: create project,
create task, update task, delete task, each with the external inputs
(fresh random id, clock, confirmation gesture, caller role) made
explicit. -/
inductive BoardOp where
  | createProject (name description freshId : String)
  | createTask (d : TaskDraft) (freshId : String) (now : Nat)
  | updateTask (taskToEdit : Task) (d : TaskDraft) (freshId : String) (now : Nat)
  | deleteTask (role : UserRole) (confirmed : Bool) (taskId : String)

/-- Dispatch one board intent to the corresponding `App` handler. -/
def applyBoardOp (st : BoardState) : BoardOp → BoardState
  | BoardOp.createProject name desc fresh =>
    let r := handleCreateProject name desc fresh st.projects
    { st with projects := r.1, activeProjectId := r.2 }
  | BoardOp.createTask d fresh now =>
    { st with tasks := handleSaveTask none d st.activeProjectId fresh now st.tasks }
  | BoardOp.updateTask te d fresh now =>
    { st with tasks := handleSaveTask (some te) d st.activeProjectId fresh now st.tasks }
  | BoardOp.deleteTask role confirmed tid =>
    { st with tasks := (handleDeleteTask role confirmed tid st.tasks).1 }

/-- The ids of the projects in the store. -/
def projectIds (st : BoardState) : List String :=
  st.projects.map Project.id

/-- Referential integrity: the active project exists, and every task's
`projectId` names an existing project. -/
def boardInv (st : BoardState) : Prop :=
  st.activeProjectId ∈ projectIds st ∧ ∀ t ∈ st.tasks, t.projectId ∈ projectIds st

/-! ## Claims -/

/-- C1 (amended): for a logged-in user, `canDrag` holds exactly when the
role is ADMIN or MANAGER, or the user's name is nonempty and the user's
first name token is a case-insensitive substring of the task's assignee
string.  The match is one-directional: the reverse inclusion (assignee
a substring of the first name token) does not make a task draggable. -/
theorem canDrag_characterization (role : UserRole) (userName assignee : String) :
    canDrag role userName assignee = true ↔
      (role = UserRole.ADMIN ∨ role = UserRole.MANAGER ∨
        (userName ≠ "" ∧
          (firstNameToken userName).map Char.toLower <:+: jsLower assignee)) := by
  cases role <;> simp [canDrag, isAssignee, strIncludes]

/-- C1 counterexample to the claim as stated: for the EMPLOYEE
"Mikey Dev" and assignee "Mike", the symmetric fuzzy match of the spec
holds ("mike" is a substring of the first name token "mikey") yet
`canDrag` is false, because the code only tests one direction. -/
theorem canDrag_symmetric_match_counterexample :
    specSymmetricAssigneeMatch "Mikey Dev" "Mike" = true ∧
      canDrag UserRole.EMPLOYEE "Mikey Dev" "Mike" = false := by decide

/-- C2: contrary to the claim, one execution of the polling step can
throw: `checkMeeting` runs `JSON.parse(stored)` with no try/catch, so
the malformed stored value "tactical" raises a SyntaxError instead of
being treated as an absent record. -/
theorem checkMeeting_throws_on_malformed_store :
    checkMeeting (some "tactical") = Except.error "Unexpected token in JSON" := by rfl

/-- C3: `deleteTask` invoked by an EMPLOYEE leaves the task store
unchanged and yields the clearance denial, regardless of the
confirmation gesture — the confirmation and removal steps are never
reached. -/
theorem deleteTask_employee_denied (confirmed : Bool) (taskId : String) (tasks : List Task) :
    handleDeleteTask UserRole.EMPLOYEE confirmed taskId tasks = (tasks, DeleteOutcome.denied) := by
  simp [handleDeleteTask]

/-- C4 (amended): for an adopted meeting whose participants list holds
the joining user's name at most once — true of every record the
handlers themselves produce — two successive `joinMeeting` calls leave
the name in the participants list exactly once; and a join by a user
whose name is already present changes nothing, so it never adds a
duplicate. -/
theorem joinMeeting_idempotent (u : User) (lm : LiveMeeting) (store : MeetingStore)
    (h : lm.participants.count u.name ≤ 1) :
    (∃ lm2,
      ((handleJoinLiveMeeting u (handleJoinLiveMeeting u ⟨some lm⟩ store).1
          (handleJoinLiveMeeting u ⟨some lm⟩ store).2).1).liveMeeting = some lm2 ∧
        lm2.participants.count u.name = 1) ∧
    (lm.participants.contains u.name = true →
      handleJoinLiveMeeting u ⟨some lm⟩ store = (⟨some lm⟩, store)) := by
  constructor
  · by_cases hmem : u.name ∈ lm.participants
    · refine ⟨lm, ?_, ?_⟩
      · simp [handleJoinLiveMeeting, hmem]
      · have hpos : 0 < lm.participants.count u.name := List.count_pos_iff.mpr hmem
        omega
    · have hzero : lm.participants.count u.name = 0 := List.count_eq_zero.mpr hmem
      refine ⟨{ lm with participants := lm.participants ++ [u.name] }, ?_, ?_⟩
      · simp [handleJoinLiveMeeting, hmem]
      · simp [List.count_append, hzero]
  · intro hc
    have hmem : u.name ∈ lm.participants := List.elem_iff.mp hc
    simp [handleJoinLiveMeeting, hmem]

/-- C4 witness: the employee Mike joining the meeting hosted by "Host"
twice ends with exactly one "Mike" among the participants. -/
theorem joinMeeting_idempotent_witness :
    ∃ lm2,
      ((handleJoinLiveMeeting ⟨"u3", "Mike", "m@d.com", UserRole.EMPLOYEE⟩
          (handleJoinLiveMeeting ⟨"u3", "Mike", "m@d.com", UserRole.EMPLOYEE⟩
            ⟨some ⟨"m1", "u1", "Host", "T", 0, true, ["Host"]⟩⟩ none).1
          (handleJoinLiveMeeting ⟨"u3", "Mike", "m@d.com", UserRole.EMPLOYEE⟩
            ⟨some ⟨"m1", "u1", "Host", "T", 0, true, ["Host"]⟩⟩ none).2).1).liveMeeting = some lm2 ∧
        lm2.participants.count "Mike" = 1 :=
  (joinMeeting_idempotent ⟨"u3", "Mike", "m@d.com", UserRole.EMPLOYEE⟩
    ⟨"m1", "u1", "Host", "T", 0, true, ["Host"]⟩ none (by decide)).1

/-- C4 counterexample to the claim as stated over every active meeting:
on a (storage-supplied) record that already lists "Mike" twice, both
joins are no-ops and the name remains in the participants list twice,
not exactly once. -/
theorem joinMeeting_exactly_once_counterexample :
    ((handleJoinLiveMeeting ⟨"u3", "Mike", "m@d.com", UserRole.EMPLOYEE⟩
        (handleJoinLiveMeeting ⟨"u3", "Mike", "m@d.com", UserRole.EMPLOYEE⟩
          ⟨some ⟨"m1", "u1", "Host", "T", 0, true, ["Mike", "Mike"]⟩⟩ none).1
        (handleJoinLiveMeeting ⟨"u3", "Mike", "m@d.com", UserRole.EMPLOYEE⟩
          ⟨some ⟨"m1", "u1", "Host", "T", 0, true, ["Mike", "Mike"]⟩⟩ none).2).1).liveMeeting =
      some ⟨"m1", "u1", "Host", "T", 0, true, ["Mike", "Mike"]⟩ ∧
      (["Mike", "Mike"] : List String).count "Mike" = 2 := by decide

/-- C5: for a host-eligible user with no active meeting (and the camera
stream the handler insists on), an empty-after-trim topic fails
validation and leaves both the local state and the shared store
untouched; a non-empty topic writes exactly the new `LiveMeeting`,
whose participants list is `[hostName]` and whose `isActive` is true. -/
theorem startMeeting_validation_and_write (u : User) (topicField : String)
    (now : Nat) (freshId : String) (st : MeetLocalState) (store : MeetingStore)
    (hhost : isHost u = true) (hactive : meetingActive st = false) :
    (jsTrim topicField = "" →
      handleStartMeeting (some u) true topicField now freshId st store =
        (st, store, StartOutcome.topicValidationFailed)) ∧
    (jsTrim topicField ≠ "" →
      handleStartMeeting (some u) true topicField now freshId st store =
        (⟨some (mkLiveMeeting u topicField now freshId)⟩,
          some (stringifyLiveMeeting (mkLiveMeeting u topicField now freshId)),
          StartOutcome.started) ∧
      (mkLiveMeeting u topicField now freshId).participants = [u.name] ∧
      (mkLiveMeeting u topicField now freshId).isActive = true) := by
  constructor
  · intro he
    simp [handleStartMeeting, hhost, hactive, he]
  · intro hne
    refine ⟨?_, rfl, rfl⟩
    simp [handleStartMeeting, hhost, hactive, hne, handleStartLiveMeeting]

/-- C5 witness: the manager Sarah with no active meeting starts
"Sprint Review"; the new record is adopted locally and written to the
shared entry. -/
theorem startMeeting_validation_and_write_witness :
    handleStartMeeting (some ⟨"u2", "Sarah Manager", "manager@devflow.com", UserRole.MANAGER⟩)
        true "Sprint Review" 5 "m1" ⟨none⟩ none =
      (⟨some (mkLiveMeeting ⟨"u2", "Sarah Manager", "manager@devflow.com", UserRole.MANAGER⟩
          "Sprint Review" 5 "m1")⟩,
        some (stringifyLiveMeeting (mkLiveMeeting
          ⟨"u2", "Sarah Manager", "manager@devflow.com", UserRole.MANAGER⟩ "Sprint Review" 5 "m1")),
        StartOutcome.started) :=
  ((startMeeting_validation_and_write
      ⟨"u2", "Sarah Manager", "manager@devflow.com", UserRole.MANAGER⟩
      "Sprint Review" 5 "m1" ⟨none⟩ none (by decide) rfl).2 (by decide)).1

/-- C6: under the assumption that the randomly drawn id differs from
every id in the store (the code performs no collision check), creating
a task appends exactly the new task, whose id misses every prior id,
whose `projectId` is the active project, whose `createdAt` equals the
call time (hence is at least the call time), and whose remaining fields
are exactly the submitted ones; looking up the new id finds it. -/
theorem createTask_fresh_id_lookup (d : TaskDraft) (activeProjectId freshId : String)
    (now : Nat) (tasks : List Task)
    (hfresh : ∀ t ∈ tasks, t.id ≠ freshId) :
    handleSaveTask none d activeProjectId freshId now tasks =
        tasks ++ [mkNewTask d freshId activeProjectId now] ∧
    (handleSaveTask none d activeProjectId freshId now tasks).find?
        (fun t => t.id = freshId) = some (mkNewTask d freshId activeProjectId now) ∧
    (∀ t ∈ tasks, t.id ≠ (mkNewTask d freshId activeProjectId now).id) ∧
    (mkNewTask d freshId activeProjectId now).projectId = activeProjectId ∧
    (mkNewTask d freshId activeProjectId now).createdAt = now ∧
    now ≤ (mkNewTask d freshId activeProjectId now).createdAt ∧
    (mkNewTask d freshId activeProjectId now).title = d.title ∧
    (mkNewTask d freshId activeProjectId now).description = d.description ∧
    (mkNewTask d freshId activeProjectId now).status = d.status ∧
    (mkNewTask d freshId activeProjectId now).category = d.category ∧
    (mkNewTask d freshId activeProjectId now).assignee = d.assignee ∧
    (mkNewTask d freshId activeProjectId now).priority = d.priority ∧
    (mkNewTask d freshId activeProjectId now).acceptanceCriteria = d.acceptanceCriteria ∧
    (mkNewTask d freshId activeProjectId now).estimatedHours = d.estimatedHours ∧
    (mkNewTask d freshId activeProjectId now).technicalPlan = d.technicalPlan := by
  have hnone : tasks.find? (fun t => t.id = freshId) = none :=
    List.find?_eq_none.mpr (fun t ht => by simpa using hfresh t ht)
  refine ⟨rfl, ?_, hfresh, rfl, rfl, Nat.le_refl now, rfl, rfl, rfl, rfl, rfl, rfl, rfl, rfl, rfl⟩
  simp [handleSaveTask, List.find?_append, hnone, mkNewTask]

/-- C6 witness: creating a task with fresh id "zzz" next to the
existing task "t1" and then looking "zzz" up yields the new task. -/
theorem createTask_fresh_id_lookup_witness :
    (handleSaveTask none
        ⟨"T", "D", TaskStatus.TODO, TaskCategory.API, "Mike", Priority.LOW, [], 4, none⟩
        "p1" "zzz" 77
        [⟨"t1", "p1", "A", "B", TaskStatus.DONE, TaskCategory.GENERAL, "Sarah", Priority.HIGH,
          [], 2, none, 0⟩]).find? (fun t => t.id = "zzz") =
      some (mkNewTask
        ⟨"T", "D", TaskStatus.TODO, TaskCategory.API, "Mike", Priority.LOW, [], 4, none⟩
        "zzz" "p1" 77) :=
  (createTask_fresh_id_lookup
      ⟨"T", "D", TaskStatus.TODO, TaskCategory.API, "Mike", Priority.LOW, [], 4, none⟩
      "p1" "zzz" 77
      [⟨"t1", "p1", "A", "B", TaskStatus.DONE, TaskCategory.GENERAL, "Sarah", Priority.HIGH,
        [], 2, none, 0⟩] (by decide)).2.1

/-- C7: `updateTask` keeps the store's length, leaves every
position whose task id differs from the edited id untouched, replaces a
matching position by the draft merge, which preserves `id`,
`projectId` and `createdAt` while taking every other field from the
patch; and when no stored task carries the edited id, the store is
unchanged. -/
theorem updateTask_frame (te : Task) (d : TaskDraft) (activeProjectId freshId : String)
    (now : Nat) (tasks : List Task) :
    (handleSaveTask (some te) d activeProjectId freshId now tasks).length = tasks.length ∧
    (∀ (i : Nat) (t : Task), tasks[i]? = some t → t.id ≠ te.id →
      (handleSaveTask (some te) d activeProjectId freshId now tasks)[i]? = some t) ∧
    (∀ (i : Nat) (t : Task), tasks[i]? = some t → t.id = te.id →
      (handleSaveTask (some te) d activeProjectId freshId now tasks)[i]? =
        some (applyDraft t d)) ∧
    (∀ t : Task, (applyDraft t d).id = t.id ∧ (applyDraft t d).projectId = t.projectId ∧
      (applyDraft t d).createdAt = t.createdAt ∧ (applyDraft t d).title = d.title ∧
      (applyDraft t d).description = d.description ∧ (applyDraft t d).status = d.status ∧
      (applyDraft t d).category = d.category ∧ (applyDraft t d).assignee = d.assignee ∧
      (applyDraft t d).priority = d.priority ∧
      (applyDraft t d).acceptanceCriteria = d.acceptanceCriteria ∧
      (applyDraft t d).estimatedHours = d.estimatedHours ∧
      (applyDraft t d).technicalPlan = d.technicalPlan) ∧
    ((∀ t ∈ tasks, t.id ≠ te.id) →
      handleSaveTask (some te) d activeProjectId freshId now tasks = tasks) := by
  refine ⟨by simp [handleSaveTask], ?_, ?_, ?_, ?_⟩
  · intro i t ht hne
    simp [handleSaveTask, List.getElem?_map, ht, hne]
  · intro i t ht heq
    simp [handleSaveTask, List.getElem?_map, ht, heq]
  · intro t
    exact ⟨rfl, rfl, rfl, rfl, rfl, rfl, rfl, rfl, rfl, rfl, rfl, rfl⟩
  · intro hnone
    calc handleSaveTask (some te) d activeProjectId freshId now tasks
        = tasks.map id := List.map_congr_left (fun t ht => if_neg (hnone t ht))
      _ = tasks := List.map_id tasks

/-- C7 witness: editing task "t1" in a two-task store leaves the
unrelated task "t2" at its position unchanged. -/
theorem updateTask_frame_witness :
    (handleSaveTask
        (some ⟨"t1", "p1", "A", "B", TaskStatus.DONE, TaskCategory.GENERAL, "Sarah",
          Priority.HIGH, [], 2, none, 0⟩)
        ⟨"T", "D", TaskStatus.TODO, TaskCategory.API, "Mike", Priority.LOW, [], 4, none⟩
        "p1" "zzz" 77
        [⟨"t1", "p1", "A", "B", TaskStatus.DONE, TaskCategory.GENERAL, "Sarah", Priority.HIGH,
          [], 2, none, 0⟩,
         ⟨"t2", "p2", "C", "E", TaskStatus.TODO, TaskCategory.DEVOPS, "Mike", Priority.LOW,
          [], 3, none, 1⟩])[1]? =
      some ⟨"t2", "p2", "C", "E", TaskStatus.TODO, TaskCategory.DEVOPS, "Mike", Priority.LOW,
        [], 3, none, 1⟩ :=
  (updateTask_frame
      ⟨"t1", "p1", "A", "B", TaskStatus.DONE, TaskCategory.GENERAL, "Sarah", Priority.HIGH,
        [], 2, none, 0⟩
      ⟨"T", "D", TaskStatus.TODO, TaskCategory.API, "Mike", Priority.LOW, [], 4, none⟩
      "p1" "zzz" 77 _).2.1 1 _ rfl (by decide)

/-- C8: stopping the meeting clears the local state and removes the
shared entry, and the polling step run against the resulting store in
any context observes "no active meeting". -/
theorem stopMeeting_pollers_observe_none (st : MeetLocalState) (store : MeetingStore) :
    (handleStopLiveMeeting st store).1.liveMeeting = none ∧
      (handleStopLiveMeeting st store).2 = none ∧
      checkMeeting (handleStopLiveMeeting st store).2 = Except.ok none := by
  simp [handleStopLiveMeeting, checkMeeting]

/-- Base case for C9: the initial board state satisfies referential
integrity. -/
theorem boardInv_initial (now0 : Nat) : boardInv (initialBoardState now0) := by
  constructor
  · simp [initialBoardState, projectIds, INITIAL_PROJECTS]
  · intro t ht
    simp only [initialBoardState, INITIAL_TASKS, List.mem_cons, List.not_mem_nil, or_false] at ht
    rcases ht with h|h|h|h|h|h|h|h <;> subst h <;>
      simp [projectIds, initialBoardState, INITIAL_PROJECTS]

/-- Preservation for C9: each of the four board intents keeps
referential integrity. -/
theorem boardInv_step (st : BoardState) (op : BoardOp) (h : boardInv st) :
    boardInv (applyBoardOp st op) := by
  obtain ⟨hact, htasks⟩ := h
  cases op with
  | createProject name desc fresh =>
    constructor
    · simp [applyBoardOp, handleCreateProject, projectIds]
    · intro t ht
      have hmem := htasks t ht
      simp only [applyBoardOp, handleCreateProject, projectIds, List.map_append,
        List.mem_append] at hmem ⊢
      exact Or.inl hmem
  | createTask d fresh now =>
    constructor
    · exact hact
    · intro t ht
      simp only [applyBoardOp, handleSaveTask, List.mem_append, List.mem_singleton] at ht
      rcases ht with ht | ht
      · exact htasks t ht
      · subst ht
        exact hact
  | updateTask te d fresh now =>
    constructor
    · exact hact
    · intro t ht
      simp only [applyBoardOp, handleSaveTask, List.mem_map] at ht
      obtain ⟨t0, ht0, rfl⟩ := ht
      have hpid : (if t0.id = te.id then applyDraft t0 d else t0).projectId = t0.projectId := by
        split <;> rfl
      simpa [projectIds, hpid] using htasks t0 ht0
  | deleteTask role confirmed tid =>
    constructor
    · exact hact
    · intro t ht
      have hmem : t ∈ st.tasks := by
        by_cases hrole : role = UserRole.EMPLOYEE
        · simpa [applyBoardOp, handleDeleteTask, hrole] using ht
        · by_cases hconf : confirmed = true
          · have ht2 := ht
            simp only [applyBoardOp, handleDeleteTask, hrole, hconf, if_false, if_true,
              ite_false, ite_true, List.mem_filter] at ht2
            exact ht2.1
          · simpa [applyBoardOp, handleDeleteTask, hrole, hconf] using ht
      exact htasks t hmem

/-- Induction along an intent sequence for C9. -/
theorem boardInv_foldl (ops : List BoardOp) :
    ∀ st, boardInv st → boardInv (ops.foldl applyBoardOp st) := by
  induction ops with
  | nil => intro st h; exact h
  | cons op rest ih => intro st h; exact ih _ (boardInv_step st op h)

/-- C9: starting from the initial projects and tasks, after any
sequence of createProject, createTask, updateTask and deleteTask
intents, the active project exists and every task's `projectId` names
an existing project. -/
theorem board_referential_integrity (now0 : Nat) (ops : List BoardOp) :
    boardInv (ops.foldl applyBoardOp (initialBoardState now0)) :=
  boardInv_foldl ops (initialBoardState now0) (boardInv_initial now0)

/-- C10: a join by a user whose name is already among the participants
performs no write at all: the local state and the shared store both
come back unchanged. -/
theorem joinMeeting_noop_when_present (u : User) (lm : LiveMeeting)
    (store : MeetingStore) (h : lm.participants.contains u.name = true) :
    handleJoinLiveMeeting u ⟨some lm⟩ store = (⟨some lm⟩, store) := by
  have hmem : u.name ∈ lm.participants := List.elem_iff.mp h
  simp [handleJoinLiveMeeting, hmem]

/-- C10 witness: "Mike" is already a participant, so the join leaves
the state and the stored record (here the placeholder string "prev")
untouched. -/
theorem joinMeeting_noop_when_present_witness :
    handleJoinLiveMeeting ⟨"u3", "Mike", "m@d.com", UserRole.EMPLOYEE⟩
        ⟨some ⟨"m1", "u1", "Host", "T", 0, true, ["Host", "Mike"]⟩⟩ (some "prev") =
      (⟨some ⟨"m1", "u1", "Host", "T", 0, true, ["Host", "Mike"]⟩⟩, some "prev") :=
  joinMeeting_noop_when_present ⟨"u3", "Mike", "m@d.com", UserRole.EMPLOYEE⟩
    ⟨"m1", "u1", "Host", "T", 0, true, ["Host", "Mike"]⟩ (some "prev") (by decide)

end DevFlow
